import Mathlib

/-!
# Verification of the GameOfLife simulation core

Shallow embedding of the simulation core of the `zendidi/GameOfLife`
repository, and proofs about it.

* `src/worker.js` — the computation worker: the `_step` stepper (neighbor
  counting under bounded or toroidal topology, next-generation computation,
  change-list production), plus its message handlers (`init`, `resize`,
  `setState`, `setCell`, `setWrap`, `step`).
* `src/engine.js` — the `SimulationEngine` coordinator: canonical state,
  counters, the busy/ready/pending concurrency flags, and the message
  protocol with the worker.

Cell buffers (JS `Uint8Array`) are embedded as `List Nat` (or as total
functions `Nat → Nat` where a pure view is more convenient); JS numbers used
as coordinates are embedded as `Int` so that out-of-range arithmetic such as
`y * cols + x` with `x = -1` is represented faithfully.  The JS `NaN` value
(which arises in `engine.setCell` when an out-of-bounds typed-array read
yields `undefined`) is embedded as `none : Option Int`.
-/

/- ================================================================
   Part 1 — the stepper (`worker.js`, `_step`, lines 34–71)
   ================================================================ -/

/-- `ym` of `worker.js:37`: `wrapEdges ? (y === 0 ? rows-1 : y-1) : y-1`. -/
def ymOf (wrap : Bool) (rows : Nat) (y : Nat) : Int :=
  if wrap then (if y = 0 then (rows : Int) - 1 else (y : Int) - 1) else (y : Int) - 1

/-- `yp` of `worker.js:38`: `wrapEdges ? (y === rows-1 ? 0 : y+1) : y+1`. -/
def ypOf (wrap : Bool) (rows : Nat) (y : Nat) : Int :=
  if wrap then (if y = rows - 1 then 0 else (y : Int) + 1) else (y : Int) + 1

/-- `xm` of `worker.js:43`. -/
def xmOf (wrap : Bool) (cols : Nat) (x : Nat) : Int :=
  if wrap then (if x = 0 then (cols : Int) - 1 else (x : Int) - 1) else (x : Int) - 1

/-- `xp` of `worker.js:44`. -/
def xpOf (wrap : Bool) (cols : Nat) (x : Nat) : Int :=
  if wrap then (if x = cols - 1 then 0 else (x : Int) + 1) else (x : Int) + 1

/-- The neighbor accumulation of `worker.js:47-61`: the eight guarded reads
`n += cur[...]`, with the guards `hasYm = ym >= 0`, `hasYp = yp < rows`,
`hasXm = xm >= 0`, `hasXp = xp < cols` exactly as in the source.  The read
`cur[idx - x + xm]` of line 54 is written `cur (y*cols + xm)` since
`idx = y*cols + x`. -/
def countNeighbors (cols rows : Nat) (wrap : Bool) (cur : Nat → Nat) (x y : Nat) : Nat :=
  let ym := ymOf wrap rows y
  let yp := ypOf wrap rows y
  let xm := xmOf wrap cols x
  let xp := xpOf wrap cols x
  (if 0 ≤ ym then
      (if 0 ≤ xm then cur (ym.toNat * cols + xm.toNat) else 0)
      + cur (ym.toNat * cols + x)
      + (if xp < (cols : Int) then cur (ym.toNat * cols + xp.toNat) else 0)
    else 0)
  + (if 0 ≤ xm then cur (y * cols + xm.toNat) else 0)
  + (if xp < (cols : Int) then cur (y * cols + xp.toNat) else 0)
  + (if yp < (rows : Int) then
      (if 0 ≤ xm then cur (yp.toNat * cols + xm.toNat) else 0)
      + cur (yp.toNat * cols + x)
      + (if xp < (cols : Int) then cur (yp.toNat * cols + xp.toNat) else 0)
    else 0)

/-- The next value of one cell, `worker.js:62-64`:
`alive ? (n === 2 || n === 3 ? 1 : 0) : (n === 3 ? 1 : 0)` where the JS
truthiness test `alive ?` is `≠ 0`. -/
def nextCell (cols rows : Nat) (wrap : Bool) (cur : Nat → Nat) (x y : Nat) : Nat :=
  let n := countNeighbors cols rows wrap cur x y
  let alive := cur (y * cols + x)
  if alive ≠ 0 then (if n = 2 ∨ n = 3 then 1 else 0) else (if n = 3 then 1 else 0)

/-- The next-generation buffer produced by `_step` as a function of the flat
index: the loop writes `nxt[idx] = next` for `idx = y*cols + x`. -/
def stepNext (cols rows : Nat) (wrap : Bool) (cur : Nat → Nat) (i : Nat) : Nat :=
  nextCell cols rows wrap cur (i % cols) (i / cols)

/-- The change list produced by `_step` (`worker.js:65`): scanning `y` then
`x`, the flat index `idx = y*cols + x` is appended whenever
`next !== alive`. -/
def stepChanges (cols rows : Nat) (wrap : Bool) (cur : Nat → Nat) : List Nat :=
  (List.range rows).flatMap (fun y =>
    (List.range cols).filterMap (fun x =>
      if nextCell cols rows wrap cur x y ≠ cur (y * cols + x)
      then some (y * cols + x) else none))

/- ================================================================
   Part 2 — claim-side neighbor semantics (spec §4.1)
   ================================================================ -/

/-- The eight Moore offsets. -/
def mooreOffsets : List (Int × Int) :=
  [(-1, -1), (0, -1), (1, -1), (-1, 0), (1, 0), (-1, 1), (0, 1), (1, 1)]

/-- Bounded-topology lookup: an off-grid neighbor contributes 0. -/
def boundedGet (cols rows : Nat) (cur : Nat → Nat) (x y : Int) : Nat :=
  if 0 ≤ x ∧ x < (cols : Int) ∧ 0 ≤ y ∧ y < (rows : Int)
  then cur (y.toNat * cols + x.toNat) else 0

/-- Toroidal lookup: coordinates wrap to the opposite edge
(modulo the dimension). -/
def wrapGet (cols rows : Nat) (cur : Nat → Nat) (x y : Int) : Nat :=
  cur ((y % (rows : Int)).toNat * cols + (x % (cols : Int)).toNat)

/-- Topology-directed lookup. -/
def topoGet (cols rows : Nat) (wrap : Bool) (cur : Nat → Nat) (x y : Int) : Nat :=
  if wrap then wrapGet cols rows cur x y else boundedGet cols rows cur x y

/-- The number of live Moore neighbors of cell `(x, y)` under the given
topology: the count of the eight offsets whose lookup is a live cell. -/
def mooreLiveCount (cols rows : Nat) (wrap : Bool) (cur : Nat → Nat) (x y : Nat) : Nat :=
  mooreOffsets.countP (fun d => topoGet cols rows wrap cur ((x : Int) + d.1) ((y : Int) + d.2) ≠ 0)

/- ================================================================
   Part 3 — resize and setCell message handlers (`worker.js:84-106`)
   and the channel resize loop (`engine.js:166-174`)
   ================================================================ -/

/-- The overlap-preserving resize of a flat row-major buffer, as a function
of the new flat index.  This is the loop of `worker.js:87-91` (state resize,
`newCur[y*nc+x] = cur[y*cols+x]` for `y < min(rows,nc_rows)`,
`x < min(cols,nc_cols)`, over a zero-initialized buffer) and, identically,
the channel-resize loop of `engine.js:168-173`.  `z` is the zero of the
element type (`0` for `Uint8Array` state, `0.0` for `Float32Array`
channels). -/
def resizeOverlap {α : Type} (z : α) (oldC oldR newC newR : Nat) (cur : Nat → α) (i : Nat) : α :=
  if i % newC < min oldC newC ∧ i / newC < min oldR newR
  then cur ((i / newC) * oldC + i % newC) else z

/-- The worker `setCell` handler (`worker.js:104-105`):
`if (data.idx >= 0 && data.idx < size) cur[data.idx] = data.value`, where
`size = cols * rows` was set by `_allocate`.  `idx` is a JS number, embedded
as `Int`. -/
def workerSetCell (size : Nat) (cur : List Nat) (idx : Int) (value : Nat) : List Nat :=
  if 0 ≤ idx ∧ idx < (size : Int) then cur.set idx.toNat value else cur

/- ================================================================
   Part 4 — the coordinator/worker system (`engine.js` + `worker.js`)

   The two sides communicate only through two FIFO queues (`toWorker`,
   `toMain`), matching the Web-Worker message-passing model (messages are
   delivered in send order).  Playback (`play`/`pause`/timers) and the rule
   and channel registries are outside the modelled events: the registries
   start empty, so the rule-application loops of `_onWorkerMessage`
   (`engine.js:96-111`) iterate zero times, and `_running` stays `false`,
   so the scheduling branch of `engine.js:124-131` is not taken.
   ================================================================ -/

/-- Messages main → worker (`worker.js:6-12`).  `init` is not listed: the
model starts after the constructor's `init`/`ready` handshake. -/
inductive WMsg where
  | stepMsg : WMsg
  | setStateMsg : List Nat → WMsg
  | setCellMsg : Int → Nat → WMsg
  | resizeMsg : Nat → Nat → WMsg
  | setWrapMsg : Bool → WMsg
deriving DecidableEq

/-- Messages worker → main (`worker.js:14-17`). -/
inductive WResp where
  | readyResp : WResp
  | resizedResp : List Nat → WResp
  | resultResp : List Nat → List Nat → WResp
deriving DecidableEq

/-- Worker-side state (`worker.js:20-24`): dimensions, the toroidal flag and
the current-generation buffer.  The worker's `size` variable always equals
`cols * rows` (both are set together by `_allocate`). -/
structure Wk where
  cols : Nat
  rows : Nat
  wrapEdges : Bool
  cur : List Nat
deriving DecidableEq

/-- Engine-side (coordinator) state: the fields of `SimulationEngine`
relevant to the core (`engine.js:19-55`).  `aliveCount` is a JS number that
can become `NaN`; it is embedded as `Option Int` with `none` = `NaN`. -/
structure Eng where
  cols : Nat
  rows : Nat
  state : List Nat
  generation : Nat
  aliveCount : Option Int
  workerBusy : Bool
  workerReady : Bool
  pendingStep : Bool
deriving DecidableEq

/-- The whole system: the two sides plus the two in-flight message queues. -/
structure Sys where
  eng : Eng
  wk : Wk
  toWorker : List WMsg
  toMain : List WResp
deriving DecidableEq

/-- One worker step on its list buffer: the `case 'step'` handler
(`worker.js:112-120`) — run `_step`, swap buffers, post a `result` carrying
copies of the new state and of the used prefix of `changeBuf`.  Reads use
`getD _ 0`; in every reachable configuration the buffer has length
`cols * rows` so the default is never taken. -/
def workerRunStep (wk : Wk) : Wk × List WResp :=
  let get := fun i => wk.cur.getD i 0
  let newCur := (List.range (wk.cols * wk.rows)).map (stepNext wk.cols wk.rows wk.wrapEdges get)
  let changes := stepChanges wk.cols wk.rows wk.wrapEdges get
  ({ wk with cur := newCur }, [WResp.resultResp newCur changes])

/-- The worker `onmessage` dispatch (`worker.js:75-123`), producing the new
worker state and the responses posted.  `setState` is `cur.set(src)`:
copy `src` over the start of `cur` (if `src` were longer than `cur` the JS
call would throw a `RangeError`; that branch leaves the state unchanged and
is never reached in the modelled traces). -/
def workerProcess (wk : Wk) (m : WMsg) : Wk × List WResp :=
  match m with
  | WMsg.stepMsg => workerRunStep wk
  | WMsg.setStateMsg st =>
      if st.length ≤ wk.cur.length
      then ({ wk with cur := st ++ wk.cur.drop st.length }, [])
      else (wk, [])
  | WMsg.setCellMsg idx v =>
      ({ wk with cur := workerSetCell (wk.cols * wk.rows) wk.cur idx v }, [])
  | WMsg.resizeMsg nc nr =>
      let newCur := (List.range (nc * nr)).map
        (resizeOverlap 0 wk.cols wk.rows nc nr (fun i => wk.cur.getD i 0))
      ({ cols := nc, rows := nr, wrapEdges := wk.wrapEdges, cur := newCur },
       [WResp.resizedResp newCur])
  | WMsg.setWrapMsg w => ({ wk with wrapEdges := w }, [])

/-- `_requestStep` (`engine.js:135-143`): returns the new engine state and
the messages posted to the worker. -/
def requestStep (e : Eng) : Eng × List WMsg :=
  if e.workerBusy ∨ ¬ e.workerReady
  then ({ e with pendingStep := true }, [])
  else ({ e with pendingStep := false, workerBusy := true }, [WMsg.stepMsg])

/-- `_resumeIfPending` (`engine.js:146-160`) with `_running = false`: a
deferred manual step is resumed via `_requestStep`. -/
def resumeIfPending (e : Eng) : Eng × List WMsg :=
  if e.pendingStep then requestStep { e with pendingStep := false } else (e, [])

/-- Sum of a state buffer, as in the alive-count recomputation loop of
`engine.js:115-117`. -/
def sumState (st : List Nat) : Int :=
  st.foldl (fun a v => a + (v : Int)) 0

/-- `_onWorkerMessage` (`engine.js:72-133`), with empty rule registries and
`_running = false` (see the Part 4 header).  The channel map is not part of
the model, so `_ensureChannelSize` (a per-channel no-op here) is omitted. -/
def onWorkerMessage (e : Eng) (r : WResp) : Eng × List WMsg :=
  match r with
  | WResp.readyResp =>
      resumeIfPending { e with workerReady := true, workerBusy := false }
  | WResp.resizedResp st =>
      resumeIfPending { e with state := st, workerBusy := false, workerReady := true }
  | WResp.resultResp st _changes =>
      ({ e with state := st, generation := e.generation + 1,
                aliveCount := some (sumState st), workerBusy := false }, [])

/-- JS read `this.state[idx]` on a `Uint8Array`: in-range gives the element,
out-of-range gives `undefined` (embedded as `none`). -/
def jsArrayGet (st : List Nat) (idx : Int) : Option Int :=
  if 0 ≤ idx ∧ idx < (st.length : Int) then some (st.getD idx.toNat 0 : Int) else none

/-- JS write `this.state[idx] = v` on a `Uint8Array`: in-range writes the
element, out-of-range is silently ignored. -/
def jsArraySet (st : List Nat) (idx : Int) (v : Nat) : List Nat :=
  if 0 ≤ idx ∧ idx < (st.length : Int) then st.set idx.toNat v else st

/-- JS `a + (b - c)` over possibly-`undefined` reads: any `undefined`
operand makes the result `NaN` (`none`). -/
def jsAddSub (a b c : Option Int) : Option Int :=
  match a, b, c with
  | some a, some b, some c => some (a + (b - c))
  | _, _, _ => none

/-- `setCell` (`engine.js:253-259`).  Note the source performs **no bounds
check on `x`/`y`**: it computes `idx = y*cols + x` and lets typed-array
semantics decide.  `prev = this.state[idx]`; the write; then
`this.aliveCount += this.state[idx] - prev` (re-reading after the write);
finally a `setCell` message is posted with `value ? 1 : 0`. -/
def engSetCell (e : Eng) (x y : Int) (value : Nat) : Eng × List WMsg :=
  let idx : Int := y * (e.cols : Int) + x
  let prev := jsArrayGet e.state idx
  let v : Nat := if value ≠ 0 then 1 else 0
  let st' := jsArraySet e.state idx v
  let ac' := jsAddSub e.aliveCount (jsArrayGet st' idx) prev
  ({ e with state := st', aliveCount := ac' }, [WMsg.setCellMsg idx v])

/-- `resize` (`engine.js:164-184`): sets the new dimensions, zeroes the
counters, marks the worker busy and not ready, and posts a `resize` message.
The canonical `state` array is **not** touched here — it is replaced only
when the worker's `resized` reply arrives.  (The channel-resize loop of
lines 166-174 acts on the channel map, which is outside the model; its
per-cell transform is `resizeOverlap`, verified separately.) -/
def engResize (e : Eng) (nc nr : Nat) : Eng × List WMsg :=
  ({ e with cols := nc, rows := nr, generation := 0, aliveCount := some 0,
            workerBusy := true, workerReady := false },
   [WMsg.resizeMsg nc nr])

/-- `reset` (`engine.js:186-193`): zero counters, all-dead canonical state,
post `setState`.  (Channel clearing acts on the unmodelled channel map.) -/
def engReset (e : Eng) : Eng × List WMsg :=
  let st := List.replicate (e.cols * e.rows) 0
  ({ e with generation := 0, aliveCount := some 0, state := st },
   [WMsg.setStateMsg st])

/-- External events driving the system: the public engine operations used by
the claims, plus one delivery step of each queue.  `deliverToWorker` /
`deliverToMain` consume the head of the corresponding FIFO queue (a no-op on
an empty queue). -/
inductive Ev where
  | stepReq : Ev
  | resetReq : Ev
  | resizeReq : Nat → Nat → Ev
  | setCellReq : Int → Int → Nat → Ev
  | deliverToWorker : Ev
  | deliverToMain : Ev
deriving DecidableEq

/-- Apply one event to the system. -/
def applyEv (s : Sys) (ev : Ev) : Sys :=
  match ev with
  | Ev.stepReq =>
      let p := requestStep s.eng
      { s with eng := p.1, toWorker := s.toWorker ++ p.2 }
  | Ev.resetReq =>
      let p := engReset s.eng
      { s with eng := p.1, toWorker := s.toWorker ++ p.2 }
  | Ev.resizeReq nc nr =>
      let p := engResize s.eng nc nr
      { s with eng := p.1, toWorker := s.toWorker ++ p.2 }
  | Ev.setCellReq x y v =>
      let p := engSetCell s.eng x y v
      { s with eng := p.1, toWorker := s.toWorker ++ p.2 }
  | Ev.deliverToWorker =>
      match s.toWorker with
      | [] => s
      | m :: rest =>
          let p := workerProcess s.wk m
          { s with wk := p.1, toWorker := rest, toMain := s.toMain ++ p.2 }
  | Ev.deliverToMain =>
      match s.toMain with
      | [] => s
      | r :: rest =>
          let p := onWorkerMessage s.eng r
          { s with eng := p.1, toMain := rest, toWorker := s.toWorker ++ p.2 }

/-- Run a trace of events. -/
def runTrace (s : Sys) (evs : List Ev) : Sys :=
  evs.foldl applyEv s

/-- The system right after the constructor's `init`/`ready` handshake
(`engine.js:16-57` then `worker.js:78-81` then `engine.js:73-78`): all-dead
state of the given dimensions on both sides, counters zero, idle and
ready, empty queues. -/
def initSys (cols rows : Nat) : Sys :=
  { eng := { cols := cols, rows := rows, state := List.replicate (cols * rows) 0,
             generation := 0, aliveCount := some 0,
             workerBusy := false, workerReady := true, pendingStep := false },
    wk := { cols := cols, rows := rows, wrapEdges := false,
            cur := List.replicate (cols * rows) 0 },
    toWorker := [], toMain := [] }

/-- Recognizer for `step` messages. -/
def isStepMsg : WMsg → Bool
  | WMsg.stepMsg => true
  | _ => false

/-- Recognizer for `resize` messages. -/
def isResizeMsg : WMsg → Bool
  | WMsg.resizeMsg _ _ => true
  | _ => false

/-- Recognizer for `result` responses. -/
def isResultResp : WResp → Bool
  | WResp.resultResp _ _ => true
  | _ => false

/-- Recognizer for `resized` responses. -/
def isResizedResp : WResp → Bool
  | WResp.resizedResp _ => true
  | _ => false

/-- Recognizer for `ready` responses. -/
def isReadyResp : WResp → Bool
  | WResp.readyResp => true
  | _ => false

/-- Count of `step` messages in a queue: the number of outstanding step
computations requested of the worker. -/
def stepMsgCount (ms : List WMsg) : Nat :=
  ms.countP isStepMsg

/-- Count of `resize` messages in a queue. -/
def resizeMsgCount (ms : List WMsg) : Nat :=
  ms.countP isResizeMsg

/-- Count of `result` responses in a queue. -/
def resultRespCount (rs : List WResp) : Nat :=
  rs.countP isResultResp

/-- Count of `resized` responses in a queue. -/
def resizedRespCount (rs : List WResp) : Nat :=
  rs.countP isResizedResp

/-- Count of `ready` responses in a queue. -/
def readyRespCount (rs : List WResp) : Nat :=
  rs.countP isReadyResp

/-- The inductive invariant of the coordinator's concurrency state machine
on resize-free executions: the worker stays ready, no resize traffic is in
flight, and the number of outstanding step computations (`step` messages not
yet processed by the worker, plus `result` responses not yet processed by the
coordinator) is at most one — and is tied to the `_workerBusy` flag. -/
def stepInvariant (s : Sys) : Prop :=
  s.eng.workerReady = true
  ∧ resizeMsgCount s.toWorker = 0
  ∧ resizedRespCount s.toMain = 0
  ∧ readyRespCount s.toMain = 0
  ∧ stepMsgCount s.toWorker + resultRespCount s.toMain ≤ 1
  ∧ (stepMsgCount s.toWorker + resultRespCount s.toMain = 1 → s.eng.workerBusy = true)

/-- The event trace exhibiting two simultaneously outstanding `step`
messages: two overlapping `resize()` calls racing deferred `step()`
requests. -/
def doubleStepTrace : List Ev :=
  [Ev.resizeReq 2 2, Ev.stepReq, Ev.resizeReq 2 2,
   Ev.deliverToWorker, Ev.deliverToMain, Ev.stepReq,
   Ev.deliverToWorker, Ev.deliverToMain]

/-- The event trace exhibiting a stale step result being applied after a
`reset()`: three cells of a 2×2 grid are made alive, a step is dispatched,
then `reset()` zeroes the canonical state; the worker then drains its queue
(three `setCell`s, the `step` — computed from the pre-reset state — and the
`setState`), and finally the coordinator processes the stale `result`. -/
def staleResultTrace : List Ev :=
  [Ev.setCellReq 0 0 1, Ev.setCellReq 1 0 1, Ev.setCellReq 0 1 1,
   Ev.stepReq, Ev.resetReq,
   Ev.deliverToWorker, Ev.deliverToWorker, Ev.deliverToWorker,
   Ev.deliverToWorker, Ev.deliverToWorker, Ev.deliverToMain]

/- ================================================================
   Part 5 — helper lemmas
   ================================================================ -/

theorem neg_one_emod (n : Nat) (h : 0 < n) : (-1 : Int) % (n : Int) = (n : Int) - 1 := by
  have h1 : (-1 : Int) = ((n : Int) - 1) + (n : Int) * (-1) := by ring
  rw [h1, Int.add_mul_emod_self_left, Int.emod_eq_of_lt (by omega) (by omega)]

theorem emod_sub_one (n k : Nat) (h : k < n) :
    ((k : Int) - 1) % (n : Int) = (if k = 0 then (n : Int) - 1 else (k : Int) - 1) := by
  by_cases h0 : k = 0
  . subst h0; simpa using neg_one_emod n (by omega)
  . rw [if_neg h0, Int.emod_eq_of_lt (by omega) (by omega)]

theorem emod_add_one (n k : Nat) (h : k < n) :
    ((k : Int) + 1) % (n : Int) = (if k = n - 1 then 0 else (k : Int) + 1) := by
  by_cases h0 : k = n - 1
  . rw [if_pos h0]
    have hh : (k : Int) + 1 = n := by omega
    rw [hh, Int.emod_self]
  . rw [if_neg h0, Int.emod_eq_of_lt (by omega) (by omega)]

theorem emod_of_lt (n k : Nat) (h : k < n) : (k : Int) % (n : Int) = (k : Int) :=
  Int.emod_eq_of_lt (by omega) (by omega)

theorem countNeighbors_eq_topoSum (cols rows : Nat) (wrap : Bool) (cur : Nat → Nat)
    (x y : Nat) (hx : x < cols) (hy : y < rows) :
    countNeighbors cols rows wrap cur x y =
      topoGet cols rows wrap cur ((x : Int) - 1) ((y : Int) - 1)
      + topoGet cols rows wrap cur (x : Int) ((y : Int) - 1)
      + topoGet cols rows wrap cur ((x : Int) + 1) ((y : Int) - 1)
      + topoGet cols rows wrap cur ((x : Int) - 1) (y : Int)
      + topoGet cols rows wrap cur ((x : Int) + 1) (y : Int)
      + topoGet cols rows wrap cur ((x : Int) - 1) ((y : Int) + 1)
      + topoGet cols rows wrap cur (x : Int) ((y : Int) + 1)
      + topoGet cols rows wrap cur ((x : Int) + 1) ((y : Int) + 1) := by
  cases wrap with
  | false =>
      have b1 : topoGet cols rows false cur ((x : Int) - 1) ((y : Int) - 1)
          = (if 0 ≤ (y : Int) - 1 then
              (if 0 ≤ (x : Int) - 1 then
                cur (((y : Int) - 1).toNat * cols + ((x : Int) - 1).toNat) else 0) else 0) := by
        simp only [topoGet, boundedGet, Bool.false_eq_true, if_false]
        split_ifs <;> omega
      have b2 : topoGet cols rows false cur (x : Int) ((y : Int) - 1)
          = (if 0 ≤ (y : Int) - 1 then cur (((y : Int) - 1).toNat * cols + x) else 0) := by
        simp only [topoGet, boundedGet, Bool.false_eq_true, if_false, Int.toNat_natCast]
        split_ifs <;> omega
      have b3 : topoGet cols rows false cur ((x : Int) + 1) ((y : Int) - 1)
          = (if 0 ≤ (y : Int) - 1 then
              (if (x : Int) + 1 < (cols : Int) then
                cur (((y : Int) - 1).toNat * cols + ((x : Int) + 1).toNat) else 0) else 0) := by
        simp only [topoGet, boundedGet, Bool.false_eq_true, if_false]
        split_ifs <;> omega
      have b4 : topoGet cols rows false cur ((x : Int) - 1) (y : Int)
          = (if 0 ≤ (x : Int) - 1 then cur (y * cols + ((x : Int) - 1).toNat) else 0) := by
        simp only [topoGet, boundedGet, Bool.false_eq_true, if_false, Int.toNat_natCast]
        split_ifs <;> omega
      have b5 : topoGet cols rows false cur ((x : Int) + 1) (y : Int)
          = (if (x : Int) + 1 < (cols : Int) then cur (y * cols + ((x : Int) + 1).toNat) else 0) := by
        simp only [topoGet, boundedGet, Bool.false_eq_true, if_false, Int.toNat_natCast]
        split_ifs <;> omega
      have b6 : topoGet cols rows false cur ((x : Int) - 1) ((y : Int) + 1)
          = (if (y : Int) + 1 < (rows : Int) then
              (if 0 ≤ (x : Int) - 1 then
                cur (((y : Int) + 1).toNat * cols + ((x : Int) - 1).toNat) else 0) else 0) := by
        simp only [topoGet, boundedGet, Bool.false_eq_true, if_false]
        split_ifs <;> omega
      have b7 : topoGet cols rows false cur (x : Int) ((y : Int) + 1)
          = (if (y : Int) + 1 < (rows : Int) then cur (((y : Int) + 1).toNat * cols + x) else 0) := by
        simp only [topoGet, boundedGet, Bool.false_eq_true, if_false, Int.toNat_natCast]
        split_ifs <;> omega
      have b8 : topoGet cols rows false cur ((x : Int) + 1) ((y : Int) + 1)
          = (if (y : Int) + 1 < (rows : Int) then
              (if (x : Int) + 1 < (cols : Int) then
                cur (((y : Int) + 1).toNat * cols + ((x : Int) + 1).toNat) else 0) else 0) := by
        simp only [topoGet, boundedGet, Bool.false_eq_true, if_false]
        split_ifs <;> omega
      rw [b1, b2, b3, b4, b5, b6, b7, b8]
      simp only [countNeighbors, ymOf, ypOf, xmOf, xpOf, Bool.false_eq_true, if_false]
      by_cases c1 : 0 ≤ (y : Int) - 1 <;> by_cases c2 : (y : Int) + 1 < (rows : Int) <;>
        by_cases c3 : 0 ≤ (x : Int) - 1 <;> by_cases c4 : (x : Int) + 1 < (cols : Int) <;>
        simp only [c1, c2, c3, c4, if_true, if_false] <;> omega
  | true =>
      have hym : 0 ≤ ymOf true rows y := by simp only [ymOf]; split_ifs <;> omega
      have hyp : ypOf true rows y < (rows : Int) := by simp only [ypOf]; split_ifs <;> omega
      have hxm : 0 ≤ xmOf true cols x := by simp only [xmOf]; split_ifs <;> omega
      have hxp : xpOf true cols x < (cols : Int) := by simp only [xpOf]; split_ifs <;> omega
      have rym : ((y : Int) - 1) % (rows : Int) = ymOf true rows y := by
        rw [emod_sub_one rows y hy]; simp [ymOf]
      have ryp : ((y : Int) + 1) % (rows : Int) = ypOf true rows y := by
        rw [emod_add_one rows y hy]; simp [ypOf]
      have rxm : ((x : Int) - 1) % (cols : Int) = xmOf true cols x := by
        rw [emod_sub_one cols x hx]; simp [xmOf]
      have rxp : ((x : Int) + 1) % (cols : Int) = xpOf true cols x := by
        rw [emod_add_one cols x hx]; simp [xpOf]
      simp only [topoGet, wrapGet, if_true, rym, ryp, rxm, rxp,
        emod_of_lt rows y hy, emod_of_lt cols x hx, Int.toNat_natCast]
      simp only [countNeighbors]
      simp only [if_pos hym, if_pos hyp, if_pos hxm, if_pos hxp]
      omega

theorem topoGet_le_one (cols rows : Nat) (wrap : Bool) (cur : Nat → Nat)
    (h1 : ∀ i, cur i ≤ 1) (a b : Int) : topoGet cols rows wrap cur a b ≤ 1 := by
  cases wrap <;> simp only [topoGet, wrapGet, boundedGet, Bool.false_eq_true, if_false, if_true]
  . split_ifs
    . exact h1 _
    . omega
  . exact h1 _

theorem indicator_eq (t : Nat) (h : t ≤ 1) : (if t ≠ 0 then 1 else 0) = t := by
  split_ifs <;> omega

theorem mooreLiveCount_eq_sum (cols rows : Nat) (wrap : Bool) (cur : Nat → Nat)
    (h1 : ∀ i, cur i ≤ 1) (x y : Nat) :
    mooreLiveCount cols rows wrap cur x y =
      topoGet cols rows wrap cur ((x : Int) - 1) ((y : Int) - 1)
      + topoGet cols rows wrap cur (x : Int) ((y : Int) - 1)
      + topoGet cols rows wrap cur ((x : Int) + 1) ((y : Int) - 1)
      + topoGet cols rows wrap cur ((x : Int) - 1) (y : Int)
      + topoGet cols rows wrap cur ((x : Int) + 1) (y : Int)
      + topoGet cols rows wrap cur ((x : Int) - 1) ((y : Int) + 1)
      + topoGet cols rows wrap cur (x : Int) ((y : Int) + 1)
      + topoGet cols rows wrap cur ((x : Int) + 1) ((y : Int) + 1) := by
  have key : ∀ a b : Int,
      (if topoGet cols rows wrap cur a b ≠ 0 then 1 else 0) = topoGet cols rows wrap cur a b :=
    fun a b => indicator_eq _ (topoGet_le_one cols rows wrap cur h1 a b)
  simp only [mooreLiveCount, mooreOffsets, List.countP_cons, List.countP_nil,
    decide_eq_true_eq, add_zero, ← Int.sub_eq_add_neg, key]
  omega

theorem filterMap_shift (P : Nat → Bool) (c : Nat) (l : List Nat) :
    l.filterMap (fun x => if P (c + x) then some (c + x) else none)
      = ((l.map (c + ·)).filter P) := by
  induction l with
  | nil => rfl
  | cons a t ih =>
      simp only [List.filterMap_cons, List.map_cons, List.filter_cons]
      by_cases h : P (c + a)
      . simp only [h, if_true, ih]
      . simp only [h, if_false, ih, Bool.false_eq_true]

theorem flatMap_rowScan (P : Nat → Bool) (cols r : Nat) :
    (List.range r).flatMap (fun y =>
      (List.range cols).filterMap (fun x =>
        if P (y * cols + x) then some (y * cols + x) else none))
      = (List.range (r * cols)).filter P := by
  induction r with
  | zero => rw [Nat.zero_mul]; rfl
  | succ r ih =>
      rw [List.range_succ, List.flatMap_append, ih, Nat.succ_mul, List.range_add,
        List.filter_append]
      simp only [List.flatMap_cons, List.flatMap_nil, List.append_nil]
      rw [filterMap_shift P (r * cols) (List.range cols), List.filter_map]

theorem stepChanges_eq_filter (cols rows : Nat) (wrap : Bool) (cur : Nat → Nat) :
    stepChanges cols rows wrap cur
      = (List.range (rows * cols)).filter
          (fun i => decide (stepNext cols rows wrap cur i ≠ cur i)) := by
  by_cases hc : cols = 0
  . subst hc
    simp [stepChanges, Nat.mul_zero]
  . have hcpos : 0 < cols := Nat.pos_of_ne_zero hc
    unfold stepChanges
    rw [← flatMap_rowScan (fun i => decide (stepNext cols rows wrap cur i ≠ cur i)) cols rows]
    apply List.flatMap_congr
    intro y hy
    apply List.filterMap_congr
    intro x hx
    have hxc : x < cols := List.mem_range.mp hx
    have hmod : (y * cols + x) % cols = x := by
      rw [Nat.mul_comm, Nat.mul_add_mod, Nat.mod_eq_of_lt hxc]
    have hdiv : (y * cols + x) / cols = y := by
      rw [Nat.mul_comm, Nat.mul_add_div hcpos, Nat.div_eq_of_lt hxc, Nat.add_zero]
    simp only [stepNext, hmod, hdiv, decide_eq_true_eq]

theorem wrapIdx (n : Nat) (hn : 0 < n) (t : Int) (h1 : -1 ≤ t) (h2 : t ≤ (n : Int)) :
    (t % (n : Int)).toNat < n
    ∧ ((t < 0 ∨ (n : Int) ≤ t) → ((t % (n : Int)).toNat = 0 ∨ (t % (n : Int)).toNat + 1 = n))
    ∧ ((0 ≤ t ∧ t < (n : Int)) → (t % (n : Int)).toNat = t.toNat) := by
  have h3 : t = -1 ∨ (0 ≤ t ∧ t < (n : Int)) ∨ t = (n : Int) := by omega
  rcases h3 with h | h | h
  . subst h
    rw [neg_one_emod n hn]
    exact ⟨by omega, fun _ => by omega, fun hx => by omega⟩
  . rw [Int.emod_eq_of_lt h.1 h.2]
    exact ⟨by omega, fun hx => by omega, fun _ => rfl⟩
  . subst h
    rw [Int.emod_self]
    exact ⟨by omega, fun _ => by omega, fun hx => by omega⟩

theorem wrapGet_eq_boundedGet (cols rows : Nat) (cur : Nat → Nat)
    (hb : ∀ a b : Nat, a < cols → b < rows →
      (a = 0 ∨ a + 1 = cols ∨ b = 0 ∨ b + 1 = rows) → cur (b * cols + a) = 0)
    (hc : 0 < cols) (hr : 0 < rows) (x' y' : Int)
    (hx1 : -1 ≤ x') (hx2 : x' ≤ (cols : Int)) (hy1 : -1 ≤ y') (hy2 : y' ≤ (rows : Int)) :
    wrapGet cols rows cur x' y' = boundedGet cols rows cur x' y' := by
  have hxw := wrapIdx cols hc x' hx1 hx2
  have hyw := wrapIdx rows hr y' hy1 hy2
  by_cases hxin : 0 ≤ x' ∧ x' < (cols : Int)
  . by_cases hyin : 0 ≤ y' ∧ y' < (rows : Int)
    . rw [wrapGet, boundedGet, if_pos ⟨hxin.1, hxin.2, hyin.1, hyin.2⟩,
        Int.emod_eq_of_lt hxin.1 hxin.2, Int.emod_eq_of_lt hyin.1 hyin.2]
    . rw [wrapGet, boundedGet, if_neg (by omega)]
      exact hb _ _ hxw.1 hyw.1 (Or.inr (Or.inr (hyw.2.1 (by omega))))
  . rw [wrapGet, boundedGet, if_neg (by omega)]
    rcases hxw.2.1 (by omega) with h | h
    . exact hb _ _ hxw.1 hyw.1 (Or.inl h)
    . exact hb _ _ hxw.1 hyw.1 (Or.inr (Or.inl h))

theorem countNeighbors_mode_eq (cols rows : Nat) (cur : Nat → Nat)
    (hb : ∀ a b : Nat, a < cols → b < rows →
      (a = 0 ∨ a + 1 = cols ∨ b = 0 ∨ b + 1 = rows) → cur (b * cols + a) = 0)
    (x y : Nat) (hx : x < cols) (hy : y < rows) :
    countNeighbors cols rows true cur x y = countNeighbors cols rows false cur x y := by
  have hc : 0 < cols := by omega
  have hr : 0 < rows := by omega
  rw [countNeighbors_eq_topoSum cols rows true cur x y hx hy,
    countNeighbors_eq_topoSum cols rows false cur x y hx hy]
  simp only [topoGet, if_true, Bool.false_eq_true, if_false]
  rw [wrapGet_eq_boundedGet cols rows cur hb hc hr ((x : Int) - 1) ((y : Int) - 1)
        (by omega) (by omega) (by omega) (by omega),
    wrapGet_eq_boundedGet cols rows cur hb hc hr (x : Int) ((y : Int) - 1)
        (by omega) (by omega) (by omega) (by omega),
    wrapGet_eq_boundedGet cols rows cur hb hc hr ((x : Int) + 1) ((y : Int) - 1)
        (by omega) (by omega) (by omega) (by omega),
    wrapGet_eq_boundedGet cols rows cur hb hc hr ((x : Int) - 1) (y : Int)
        (by omega) (by omega) (by omega) (by omega),
    wrapGet_eq_boundedGet cols rows cur hb hc hr ((x : Int) + 1) (y : Int)
        (by omega) (by omega) (by omega) (by omega),
    wrapGet_eq_boundedGet cols rows cur hb hc hr ((x : Int) - 1) ((y : Int) + 1)
        (by omega) (by omega) (by omega) (by omega),
    wrapGet_eq_boundedGet cols rows cur hb hc hr (x : Int) ((y : Int) + 1)
        (by omega) (by omega) (by omega) (by omega),
    wrapGet_eq_boundedGet cols rows cur hb hc hr ((x : Int) + 1) ((y : Int) + 1)
        (by omega) (by omega) (by omega) (by omega)]

theorem countP_snoc {α : Type} (p : α → Bool) (l : List α) (a : α) :
    List.countP p (l ++ [a]) = List.countP p l + (if p a then 1 else 0) := by
  simp [List.countP_append, List.countP_cons]

theorem stepInvariant_init (cols rows : Nat) : stepInvariant (initSys cols rows) := by
  refine ⟨rfl, rfl, rfl, rfl, ?_, ?_⟩ <;>
    simp [initSys, stepMsgCount, resultRespCount, List.countP_nil]

theorem stepInvariant_preserved (s : Sys) (hinv : stepInvariant s) (ev : Ev)
    (hev : ∀ c r, ev ≠ Ev.resizeReq c r) : stepInvariant (applyEv s ev) := by
  obtain ⟨hready, hw0, hm0, hr0, hsum, himp⟩ := hinv
  simp only [stepMsgCount, resizeMsgCount, resultRespCount, resizedRespCount,
    readyRespCount] at hw0 hm0 hr0 hsum himp
  cases ev with
  | stepReq =>
      simp only [applyEv, requestStep]
      split_ifs with hb
      . refine ⟨hready, ?_, hm0, hr0, ?_, ?_⟩ <;>
          simp only [List.append_nil] <;>
          first
            | exact hw0
            | exact hsum
            | exact himp
      . push_neg at hb
        have hbusy : s.eng.workerBusy = false := by
          cases hx : s.eng.workerBusy
          . rfl
          . exact absurd hx hb.1
        have hz : List.countP isStepMsg s.toWorker + List.countP isResultResp s.toMain = 0 := by
          rcases Nat.lt_or_ge (List.countP isStepMsg s.toWorker
            + List.countP isResultResp s.toMain) 1 with hlt | hge
          . omega
          . have hcontra := himp (by omega)
            rw [hbusy] at hcontra
            exact absurd hcontra (by simp)
        refine ⟨hready, ?_, hm0, hr0, ?_, fun _ => rfl⟩ <;>
          simp only [stepMsgCount, resizeMsgCount, resultRespCount, countP_snoc,
            isStepMsg, isResizeMsg, eq_self_iff_true, Bool.false_eq_true,
            if_true, if_false] <;>
          omega
  | resetReq =>
      refine ⟨hready, ?_, hm0, hr0, ?_, ?_⟩ <;>
        simp only [applyEv, engReset, stepMsgCount, resizeMsgCount, resultRespCount,
          countP_snoc, isStepMsg, isResizeMsg, eq_self_iff_true, Bool.false_eq_true,
          if_true, if_false, Nat.add_zero] <;>
        first
          | exact hw0
          | exact hsum
          | exact himp
  | resizeReq c r => exact absurd rfl (hev c r)
  | setCellReq x y v =>
      refine ⟨hready, ?_, hm0, hr0, ?_, ?_⟩ <;>
        simp only [applyEv, engSetCell, stepMsgCount, resizeMsgCount, resultRespCount,
          countP_snoc, isStepMsg, isResizeMsg, eq_self_iff_true, Bool.false_eq_true,
          if_true, if_false, Nat.add_zero] <;>
        first
          | exact hw0
          | exact hsum
          | exact himp
  | deliverToWorker =>
      simp only [applyEv]
      cases hq : s.toWorker with
      | nil => exact ⟨hready, hw0, hm0, hr0, hsum, himp⟩
      | cons m rest =>
          rw [hq] at hw0 hsum himp
          simp only [List.countP_cons] at hw0 hsum himp
          cases m <;>
            simp only [isStepMsg, isResizeMsg, eq_self_iff_true, Bool.false_eq_true,
              if_true, if_false, Nat.add_zero] at hw0 hsum himp
          case resizeMsg c r => omega
          all_goals
            refine ⟨hready, ?_, ?_, ?_, ?_, ?_⟩ <;>
              simp only [workerProcess, workerRunStep] <;>
              (try split_ifs) <;>
              simp only [stepMsgCount, resizeMsgCount,
                resultRespCount, resizedRespCount, readyRespCount, countP_snoc,
                List.countP_cons, List.countP_nil, List.append_nil, isStepMsg,
                isResizeMsg, isResultResp, isResizedResp, isReadyResp,
                eq_self_iff_true, Bool.false_eq_true,
                if_true, if_false, Nat.add_zero] <;>
              first
                | rfl
                | exact hm0
                | exact hr0
                | omega
                | (intro h; exact himp (by omega))
  | deliverToMain =>
      simp only [applyEv]
      cases hq : s.toMain with
      | nil => exact ⟨hready, hw0, hm0, hr0, hsum, himp⟩
      | cons r rest =>
          rw [hq] at hm0 hr0 hsum himp
          simp only [List.countP_cons] at hm0 hr0 hsum himp
          cases r <;>
            simp only [isResultResp, isResizedResp, isReadyResp, eq_self_iff_true,
              Bool.false_eq_true, if_true, if_false, Nat.add_zero] at hm0 hr0 hsum himp
          case readyResp => omega
          case resizedResp st => omega
          case resultResp st chs =>
            refine ⟨hready, ?_, ?_, ?_, ?_, ?_⟩ <;>
              simp only [onWorkerMessage, stepMsgCount, resizeMsgCount, resultRespCount,
                resizedRespCount, readyRespCount, List.countP_cons, List.append_nil,
                isStepMsg, isResizeMsg, isResultResp, isResizedResp, isReadyResp,
                eq_self_iff_true, Bool.false_eq_true, if_true, if_false, Nat.add_zero] <;>
              first
                | rfl
                | exact hw0
                | exact hm0
                | exact hr0
                | omega

theorem runTrace_stepInvariant (evs : List Ev) (s : Sys) (hinv : stepInvariant s)
    (hno : ∀ c r, Ev.resizeReq c r ∉ evs) : stepInvariant (runTrace s evs) := by
  induction evs generalizing s with
  | nil => exact hinv
  | cons e t ih =>
      have he : ∀ c r, e ≠ Ev.resizeReq c r := by
        intro c r h
        exact hno c r (by rw [h]; exact List.mem_cons_self _ _)
      have ht : ∀ c r, Ev.resizeReq c r ∉ t :=
        fun c r h => hno c r (List.mem_cons_of_mem _ h)
      exact ih (applyEv s e) (stepInvariant_preserved s hinv e he) ht

/- ================================================================
   Part 6 — the claims
   ================================================================ -/

/-- C1: for every grid (any `cols ≥ 0`, `rows ≥ 0`), every current state
(cell values 0/1), either topology mode, and every cell `(x, y)` of the
grid, one step computation produces a next state in which a live cell with
exactly 2 or 3 live Moore neighbors (an off-grid neighbor contributing 0 in
bounded mode, coordinates wrapping to the opposite edge in toroidal mode)
is alive, every other live cell is dead, a dead cell with exactly 3 live
neighbors becomes alive, and every other dead cell stays dead. -/
theorem lifeRuleStep (cols rows : Nat) (wrap : Bool) (cur : Nat → Nat)
    (hcur : ∀ i, cur i ≤ 1) (x y : Nat) (hx : x < cols) (hy : y < rows) :
    stepNext cols rows wrap cur (y * cols + x) =
      if cur (y * cols + x) = 1
      then (if mooreLiveCount cols rows wrap cur x y = 2 ∨ mooreLiveCount cols rows wrap cur x y = 3
            then 1 else 0)
      else (if mooreLiveCount cols rows wrap cur x y = 3 then 1 else 0) := by
  have hc : 0 < cols := by omega
  have hmod : (y * cols + x) % cols = x := by
    rw [Nat.mul_comm, Nat.mul_add_mod, Nat.mod_eq_of_lt hx]
  have hdiv : (y * cols + x) / cols = y := by
    rw [Nat.mul_comm, Nat.mul_add_div hc, Nat.div_eq_of_lt hx, Nat.add_zero]
  have hnm : countNeighbors cols rows wrap cur x y = mooreLiveCount cols rows wrap cur x y :=
    (countNeighbors_eq_topoSum cols rows wrap cur x y hx hy).trans
      (mooreLiveCount_eq_sum cols rows wrap cur hcur x y).symm
  simp only [stepNext, hmod, hdiv, nextCell, hnm]
  have hle := hcur (y * cols + x)
  by_cases ha : cur (y * cols + x) = 0
  . simp [ha]
  . have h1 : cur (y * cols + x) = 1 := by omega
    simp [h1]

/-- Witness for C1: the all-alive 3×3 grid at the center cell, which has 8
live neighbors and therefore dies. -/
theorem lifeRuleStep_witness :
    (∀ i, (fun _ => 1 : Nat → Nat) i ≤ 1) ∧ 1 < 3 ∧
    stepNext 3 3 false (fun _ => 1) (1 * 3 + 1) =
      (if (fun _ => 1 : Nat → Nat) (1 * 3 + 1) = 1
       then (if mooreLiveCount 3 3 false (fun _ => 1) 1 1 = 2
                ∨ mooreLiveCount 3 3 false (fun _ => 1) 1 1 = 3
             then 1 else 0)
       else (if mooreLiveCount 3 3 false (fun _ => 1) 1 1 = 3 then 1 else 0)) :=
  ⟨fun _ => Nat.le_refl 1, by omega,
   lifeRuleStep 3 3 false (fun _ => 1) (fun _ => Nat.le_refl 1) 1 1 (by omega) (by omega)⟩

/-- C2: the change list produced by one step computation is exactly the
row-major filter of the flat indices at which the previous state and the
newly computed state differ — no extras, no omissions — and its entries are
strictly increasing (row-major scan order). -/
theorem changeListExactSorted (cols rows : Nat) (wrap : Bool) (cur : Nat → Nat) :
    stepChanges cols rows wrap cur
      = (List.range (rows * cols)).filter
          (fun i => decide (stepNext cols rows wrap cur i ≠ cur i))
    ∧ (stepChanges cols rows wrap cur).Pairwise (· < ·) := by
  have h := stepChanges_eq_filter cols rows wrap cur
  refine ⟨h, ?_⟩
  rw [h]
  exact List.Pairwise.sublist (List.filter_sublist _) (List.pairwise_lt_range _)

/-- C3 counterexample: a reachable state of the coordinator with TWO `step`
computations outstanding at once.  Trace: `resize`; `step()` (deferred,
pending flag set); second `resize`; the worker answers the first resize;
the coordinator's `resized` handler resumes the pending step — sending a
`step` message while the second `resize` is still queued; a further
`step()` is deferred; the worker answers the second resize; the resumed
pending step is sent while the first `step` message is still unprocessed. -/
theorem twoOutstandingSteps :
    stepMsgCount (runTrace (initSys 2 2) doubleStepTrace).toWorker = 2 := by decide

/-- C3 amended: on every execution that performs no `resize`, at most one
step computation is outstanding at every reachable state; and whenever the
worker is busy, a `step()` request only sets the boolean `_pendingStep`
flag — it sends no message — so any number of such requests coalesce into
that single flag. -/
theorem stepRequestCoalescing (cols rows : Nat) (evs : List Ev)
    (hno : ∀ c r, Ev.resizeReq c r ∉ evs) :
    stepMsgCount (runTrace (initSys cols rows) evs).toWorker ≤ 1
    ∧ ∀ s : Sys, s.eng.workerBusy = true →
        applyEv s Ev.stepReq = { s with eng := { s.eng with pendingStep := true } } := by
  constructor
  . have h := runTrace_stepInvariant evs (initSys cols rows) (stepInvariant_init cols rows) hno
    have h5 := h.2.2.2.2.1
    simp only [stepMsgCount, resultRespCount] at h5 ⊢
    omega
  . intro s hbusy
    simp only [applyEv, requestStep, hbusy]
    simp

/-- Witness for C3 amended: three rapid `step()` requests on a 2×2 grid. -/
theorem stepRequestCoalescing_witness :
    (∀ c r, Ev.resizeReq c r ∉ [Ev.stepReq, Ev.stepReq, Ev.stepReq])
    ∧ (stepMsgCount (runTrace (initSys 2 2) [Ev.stepReq, Ev.stepReq, Ev.stepReq]).toWorker ≤ 1
       ∧ ∀ s : Sys, s.eng.workerBusy = true →
           applyEv s Ev.stepReq = { s with eng := { s.eng with pendingStep := true } }) :=
  ⟨fun c r h => by simp at h,
   stepRequestCoalescing 2 2 [Ev.stepReq, Ev.stepReq, Ev.stepReq] (fun c r h => by simp at h)⟩

/-- C4: a step result computed from pre-`reset()` state is *applied*, not
discarded — the code-level behavior contradicting the claim.  After
`staleResultTrace` (three live cells, `step()` dispatched, `reset()`, then
message delivery), the canonical state right after the reset is all-dead
with generation 0; after the stale `result` arrives the canonical state is
the generation computed from the *pre-reset* grid, the generation counter
is 1, and the alive count 4. -/
theorem staleResultApplied :
    (runTrace (initSys 2 2) (staleResultTrace.take 5)).eng.state = [0, 0, 0, 0]
    ∧ (runTrace (initSys 2 2) (staleResultTrace.take 5)).eng.generation = 0
    ∧ (runTrace (initSys 2 2) (staleResultTrace.take 5)).eng.aliveCount = some 0
    ∧ (runTrace (initSys 2 2) staleResultTrace).eng.state = [1, 1, 1, 1]
    ∧ (runTrace (initSys 2 2) staleResultTrace).eng.generation = 1
    ∧ (runTrace (initSys 2 2) staleResultTrace).eng.aliveCount = some 4 := by decide

/-- C5 counterexample: `setCell(-1, 1, 1)` on a 2×2 engine has out-of-range
`x = -1`, yet is **not** a no-op: the flattened index `1*2 + (-1) = 1` is in
range, so the cell at flat index 1 — i.e. cell `(1, 0)` — is overwritten and
the alive count changes; and `setCell(5, 5, 1)` (flattened index out of
range) leaves the state alone but turns the alive count into `NaN`. -/
theorem setCellOutOfRangeWrites :
    (engSetCell (initSys 2 2).eng (-1) 1 1).1.state = [0, 1, 0, 0]
    ∧ (initSys 2 2).eng.state = [0, 0, 0, 0]
    ∧ (engSetCell (initSys 2 2).eng (-1) 1 1).1.aliveCount = some 1
    ∧ (engSetCell (initSys 2 2).eng 5 5 1).1.aliveCount = none := by decide

/-- C5 amended: `setCell(x, y, value)` performs no validation of `x` and `y`
themselves; it computes the flattened index `idx = y*cols + x` and relies on
typed-array semantics.  If `idx ∈ [0, state.length)` the cell at `idx` is
overwritten with `value ? 1 : 0` (even when `x` or `y` individually are out
of range, thereby writing a *different* cell) and the alive count is
adjusted by the value difference; if `idx` is out of range the state is
unchanged but the alive count becomes `NaN` (`none`).  In both cases no
error is raised and `cols`, `rows` and the generation are unchanged. -/
theorem setCellNoBoundsCheck (e : Eng) (x y : Int) (value : Nat) :
    ((0 ≤ y * (e.cols : Int) + x ∧ y * (e.cols : Int) + x < (e.state.length : Int)) →
      (engSetCell e x y value).1.state
        = e.state.set (y * (e.cols : Int) + x).toNat (if value ≠ 0 then 1 else 0)
      ∧ (engSetCell e x y value).1.aliveCount
          = jsAddSub e.aliveCount (some ((if value ≠ 0 then 1 else 0 : Nat) : Int))
              (some (e.state.getD (y * (e.cols : Int) + x).toNat 0 : Int)))
    ∧ (¬(0 ≤ y * (e.cols : Int) + x ∧ y * (e.cols : Int) + x < (e.state.length : Int)) →
      (engSetCell e x y value).1.state = e.state
      ∧ (engSetCell e x y value).1.aliveCount = none)
    ∧ (engSetCell e x y value).1.cols = e.cols
    ∧ (engSetCell e x y value).1.rows = e.rows
    ∧ (engSetCell e x y value).1.generation = e.generation := by
  refine ⟨?_, ?_, rfl, rfl, rfl⟩
  . intro h
    have hlen : (e.state.set (y * (e.cols : Int) + x).toNat
        (if value ≠ 0 then 1 else 0)).length = e.state.length := by
      simp
    have hlt : (y * (e.cols : Int) + x).toNat < e.state.length := by omega
    constructor
    . simp only [engSetCell, jsArraySet, if_pos h]
    . simp only [engSetCell, jsArraySet, jsArrayGet, if_pos h, jsAddSub]
      rw [if_pos (by rw [hlen]; exact h)]
      have hgd : (e.state.set (y * (e.cols : Int) + x).toNat
          (if value ≠ 0 then 1 else 0)).getD (y * (e.cols : Int) + x).toNat 0
          = (if value ≠ 0 then 1 else 0) := by
        rw [List.getD_eq_getElem?_getD]
        simp [List.getElem?_set_self', List.getElem?_eq_getElem, hlt]
      rw [hgd]
  . intro h
    constructor
    . simp only [engSetCell, jsArraySet, if_neg h]
    . simp only [engSetCell, jsArraySet, jsArrayGet, if_neg h, jsAddSub]
      rcases e.aliveCount with _ | a <;> rfl

/-- Witness for C5 amended: `setCell(-1, 1, 1)` on the 2×2 engine (the
in-range-index implication) — the flattened index is 1, cell 1 is set. -/
theorem setCellNoBoundsCheck_witness :
    (0 ≤ (1 : Int) * ((initSys 2 2).eng.cols : Int) + (-1)
      ∧ (1 : Int) * ((initSys 2 2).eng.cols : Int) + (-1)
          < ((initSys 2 2).eng.state.length : Int))
    ∧ (engSetCell (initSys 2 2).eng (-1) 1 1).1.state
        = (initSys 2 2).eng.state.set
            ((1 : Int) * ((initSys 2 2).eng.cols : Int) + (-1)).toNat
            (if (1 : Nat) ≠ 0 then 1 else 0)
    ∧ (engSetCell (initSys 2 2).eng (-1) 1 1).1.generation = (initSys 2 2).eng.generation :=
  ⟨by decide,
   ((setCellNoBoundsCheck (initSys 2 2).eng (-1) 1 1).1 (by decide)).1,
   (setCellNoBoundsCheck (initSys 2 2).eng (-1) 1 1).2.2.2.2⟩

/-- C6 counterexample: immediately after `resize(2, 1)` returns on a 1×1
engine — before the worker's `resized` reply — the canonical state still has
its old length 1 while `cols * rows = 2`: `state.length == cols*rows` does
not hold in the externally observable window between the `resize()` call and
the `resized` reply. -/
theorem resizeBreaksLengthInvariant :
    (applyEv (initSys 1 1) (Ev.resizeReq 2 1)).eng.state.length = 1
    ∧ (applyEv (initSys 1 1) (Ev.resizeReq 2 1)).eng.cols
        * (applyEv (initSys 1 1) (Ev.resizeReq 2 1)).eng.rows = 2 := by decide

/-- C6 amended: `resize(nc, nr)` updates `cols`/`rows` immediately but does
not touch the canonical state array (which keeps its old length), so the
invariant `state.length == cols*rows` is broken during the resize window;
it is restored once the worker's `resized` reply is processed: from a
quiescent system (both queues empty), `resize` followed by one worker
delivery and one coordinator delivery yields `state.length = nc * nr`. -/
theorem resizeWindowThenRestore (s : Sys) (nc nr : Nat)
    (hw : s.toWorker = []) (hm : s.toMain = []) :
    ((applyEv s (Ev.resizeReq nc nr)).eng.state = s.eng.state
      ∧ (applyEv s (Ev.resizeReq nc nr)).eng.cols = nc
      ∧ (applyEv s (Ev.resizeReq nc nr)).eng.rows = nr)
    ∧ ((runTrace s [Ev.resizeReq nc nr, Ev.deliverToWorker, Ev.deliverToMain]).eng.state.length
        = nc * nr
      ∧ (runTrace s [Ev.resizeReq nc nr, Ev.deliverToWorker, Ev.deliverToMain]).eng.cols = nc
      ∧ (runTrace s [Ev.resizeReq nc nr, Ev.deliverToWorker, Ev.deliverToMain]).eng.rows = nr) := by
  constructor
  . exact ⟨rfl, rfl, rfl⟩
  . simp only [runTrace, List.foldl, applyEv, engResize, hw, hm, List.nil_append]
    simp only [workerProcess, onWorkerMessage, resumeIfPending, requestStep, List.nil_append]
    rcases hp : s.eng.pendingStep with _ | _ <;>
      simp [hp, List.length_map, List.length_range]

/-- Witness for C6 amended: the quiescent 1×1 engine resized to 2×1. -/
theorem resizeWindowThenRestore_witness :
    ((initSys 1 1).toWorker = [] ∧ (initSys 1 1).toMain = [])
    ∧ (applyEv (initSys 1 1) (Ev.resizeReq 2 1)).eng.state = (initSys 1 1).eng.state
    ∧ (runTrace (initSys 1 1)
        [Ev.resizeReq 2 1, Ev.deliverToWorker, Ev.deliverToMain]).eng.state.length = 2 * 1 :=
  ⟨⟨rfl, rfl⟩,
   ((resizeWindowThenRestore (initSys 1 1) 2 1 rfl rfl).1).1,
   ((resizeWindowThenRestore (initSys 1 1) 2 1 rfl rfl).2).1⟩

/-- C7: resizing from `(c1, r1)` to `(c2, r2)` and back with no mutation in
between leaves every cell whose coordinates are valid in both sizes with its
original value, and after a growth every cell outside the overlapping
top-left sub-rectangle holds the zero element.  `resizeOverlap` is the
per-cell transform of both the worker state resize (`worker.js:87-91`) and
the engine channel resize (`engine.js:168-173`), so this covers both the
state and every channel. -/
theorem resizeRoundTripPreservesOverlap {α : Type} (z : α) (c1 r1 c2 r2 : Nat)
    (cur : Nat → α) :
    (∀ x y, x < min c1 c2 → y < min r1 r2 →
      resizeOverlap z c2 r2 c1 r1 (resizeOverlap z c1 r1 c2 r2 cur) (y * c1 + x)
        = cur (y * c1 + x))
    ∧ (c1 ≤ c2 → r1 ≤ r2 → ∀ x y, x < c2 → y < r2 → ¬(x < c1 ∧ y < r1) →
      resizeOverlap z c1 r1 c2 r2 cur (y * c2 + x) = z) := by
  constructor
  . intro x y hx hy
    have hc1 : 0 < c1 := by omega
    have hc2 : 0 < c2 := by omega
    have hm1 : (y * c1 + x) % c1 = x := by
      rw [Nat.mul_comm, Nat.mul_add_mod, Nat.mod_eq_of_lt (by omega)]
    have hd1 : (y * c1 + x) / c1 = y := by
      rw [Nat.mul_comm, Nat.mul_add_div hc1, Nat.div_eq_of_lt (by omega), Nat.add_zero]
    have hm2 : (y * c2 + x) % c2 = x := by
      rw [Nat.mul_comm, Nat.mul_add_mod, Nat.mod_eq_of_lt (by omega)]
    have hd2 : (y * c2 + x) / c2 = y := by
      rw [Nat.mul_comm, Nat.mul_add_div hc2, Nat.div_eq_of_lt (by omega), Nat.add_zero]
    simp only [resizeOverlap, hm1, hd1, hm2, hd2]
    rw [if_pos (by omega), if_pos (by omega)]
  . intro hcc hrr x y hx hy hout
    have hc2 : 0 < c2 := by omega
    have hm2 : (y * c2 + x) % c2 = x := by
      rw [Nat.mul_comm, Nat.mul_add_mod, Nat.mod_eq_of_lt (by omega)]
    have hd2 : (y * c2 + x) / c2 = y := by
      rw [Nat.mul_comm, Nat.mul_add_div hc2, Nat.div_eq_of_lt (by omega), Nat.add_zero]
    simp only [resizeOverlap, hm2, hd2]
    rw [if_neg (by omega)]

/-- Witness for C7: a 2×2 grid holding its own flat indices, grown to 3×3
and shrunk back — cell `(1, 1)` keeps its value, and after the growth cell
`(2, 0)` (outside the overlap) is zero. -/
theorem resizeRoundTripPreservesOverlap_witness :
    (1 < min 2 3 ∧
      resizeOverlap 0 3 3 2 2 (resizeOverlap 0 2 2 3 3 (fun i => i + 10)) (1 * 2 + 1)
        = (fun i => i + 10) (1 * 2 + 1))
    ∧ (2 ≤ 3 ∧ 2 < 3 ∧ 0 < 3 ∧ ¬(2 < 2 ∧ 0 < 2) ∧
      resizeOverlap 0 2 2 3 3 (fun i => i + 10) (0 * 3 + 2) = 0) :=
  ⟨⟨by omega,
    (resizeRoundTripPreservesOverlap 0 2 2 3 3 (fun i => i + 10)).1 1 1 (by omega) (by omega)⟩,
   ⟨by omega, by omega, by omega, by omega,
    (resizeRoundTripPreservesOverlap 0 2 2 3 3 (fun i => i + 10)).2 (by omega) (by omega)
      2 0 (by omega) (by omega) (by omega)⟩⟩

/-- C8: if every cell in the first or last row or column is dead (all live
cells strictly interior), one step in bounded mode and one step in toroidal
mode produce identical next generations and identical change lists. -/
theorem interiorPatternsModeAgnostic (cols rows : Nat) (cur : Nat → Nat)
    (hb : ∀ a b : Nat, a < cols → b < rows →
      (a = 0 ∨ a + 1 = cols ∨ b = 0 ∨ b + 1 = rows) → cur (b * cols + a) = 0) :
    (∀ i, i < rows * cols → stepNext cols rows true cur i = stepNext cols rows false cur i)
    ∧ stepChanges cols rows true cur = stepChanges cols rows false cur := by
  have hstep : ∀ i, i < rows * cols →
      stepNext cols rows true cur i = stepNext cols rows false cur i := by
    intro i hi
    have hc : 0 < cols := by
      rcases Nat.eq_zero_or_pos cols with h | h
      . subst h; omega
      . exact h
    have hx : i % cols < cols := Nat.mod_lt i hc
    have hy : i / cols < rows := Nat.div_lt_of_lt_mul (by rw [Nat.mul_comm cols rows]; exact hi)
    simp only [stepNext, nextCell]
    rw [countNeighbors_mode_eq cols rows cur hb (i % cols) (i / cols) hx hy]
  refine ⟨hstep, ?_⟩
  rw [stepChanges_eq_filter cols rows true cur, stepChanges_eq_filter cols rows false cur]
  apply List.filter_congr
  intro i hi
  have hi' : i < rows * cols := List.mem_range.mp hi
  rw [hstep i hi']

/-- Witness for C8: a single live cell at the center of a 3×3 grid — an
interior-only pattern — steps identically in both modes. -/
theorem interiorPatternsModeAgnostic_witness :
    (∀ a b : Nat, a < 3 → b < 3 →
      (a = 0 ∨ a + 1 = 3 ∨ b = 0 ∨ b + 1 = 3) →
        (fun i => if i = 4 then 1 else 0 : Nat → Nat) (b * 3 + a) = 0)
    ∧ stepChanges 3 3 true (fun i => if i = 4 then 1 else 0)
        = stepChanges 3 3 false (fun i => if i = 4 then 1 else 0) :=
  ⟨fun a b ha hb hedge => by dsimp only; rw [if_neg (by omega)],
   (interiorPatternsModeAgnostic 3 3 (fun i => if i = 4 then 1 else 0)
     (fun a b ha hb hedge => by dsimp only; rw [if_neg (by omega)])).2⟩

/-- C9 counterexample: a 1×1 grid with its single cell alive produces a
non-empty change list in both topology modes — the lone cell dies (0 live
neighbors in bounded mode; its 8 wrapped neighbor reads all hit itself in
toroidal mode, giving count 8), so the claim that 1×1 grids trivially
produce no changes is false. -/
theorem oneByOneLiveCellChanges :
    stepChanges 1 1 false (fun _ => 1) = [0]
    ∧ stepChanges 1 1 true (fun _ => 1) = [0] := by decide

/-- C9 amended: grids with `cols = 0` or `rows = 0` produce no changes in
either mode; a 1×1 grid produces no changes when its cell is dead, but a
live 1×1 cell dies in one step (change list `[0]`) in both modes. -/
theorem degenerateGridsNoChanges (cols rows : Nat) (wrap : Bool) (cur : Nat → Nat) :
    (cols = 0 ∨ rows = 0 → stepChanges cols rows wrap cur = [])
    ∧ (cur 0 = 0 → stepChanges 1 1 wrap cur = [])
    ∧ (cur 0 = 1 → stepChanges 1 1 wrap cur = [0] ∧ stepNext 1 1 wrap cur 0 = 0) := by
  refine ⟨?_, ?_, ?_⟩
  . intro h
    rw [stepChanges_eq_filter]
    rcases h with h | h <;> subst h <;> simp
  . intro h
    cases wrap <;>
      simp [stepChanges, nextCell, countNeighbors, ymOf, ypOf, xmOf, xpOf, h,
        List.range_succ, List.flatMap_cons, List.filterMap_cons]
  . intro h
    cases wrap <;>
      constructor <;>
      simp [stepChanges, stepNext, nextCell, countNeighbors, ymOf, ypOf, xmOf, xpOf, h,
        List.range_succ, List.flatMap_cons, List.filterMap_cons]

/-- Witness for C9 amended: a 0×3 grid (no changes), a dead 1×1 grid (no
changes), and a live 1×1 grid (the cell dies). -/
theorem degenerateGridsNoChanges_witness :
    ((0 = 0 ∨ 3 = 0) ∧ stepChanges 0 3 false (fun _ => 1) = [])
    ∧ ((fun _ => 0 : Nat → Nat) 0 = 0 ∧ stepChanges 1 1 true (fun _ => 0) = [])
    ∧ ((fun _ => 1 : Nat → Nat) 0 = 1 ∧ stepChanges 1 1 false (fun _ => 1) = [0]) :=
  ⟨⟨Or.inl rfl, (degenerateGridsNoChanges 0 3 false (fun _ => 1)).1 (Or.inl rfl)⟩,
   ⟨rfl, (degenerateGridsNoChanges 1 1 true (fun _ => 0)).2.1 rfl⟩,
   ⟨rfl, ((degenerateGridsNoChanges 1 1 false (fun _ => 1)).2.2 rfl).1⟩⟩

/-- C10: the worker `setCell` handler checks `0 <= idx < size`
(`size = cols*rows`): an out-of-range index leaves the buffer entirely
unchanged; an in-range index overwrites exactly the cell at `idx` and
leaves every other cell unchanged. -/
theorem workerSetCellBounds (cols rows : Nat) (cur : List Nat) (idx : Int) (v : Nat)
    (hlen : cur.length = cols * rows) :
    (¬(0 ≤ idx ∧ idx < ((cols * rows : Nat) : Int)) →
      workerSetCell (cols * rows) cur idx v = cur)
    ∧ ((0 ≤ idx ∧ idx < ((cols * rows : Nat) : Int)) →
        (workerSetCell (cols * rows) cur idx v)[idx.toNat]? = some v
        ∧ ∀ j, j ≠ idx.toNat → (workerSetCell (cols * rows) cur idx v)[j]? = cur[j]?) := by
  constructor
  . intro h
    rw [workerSetCell, if_neg h]
  . intro h
    rw [workerSetCell, if_pos h]
    constructor
    . have hlt : idx.toNat < cur.length := by
        rw [hlen]
        generalize hgen : cols * rows = n at h
        omega
      simp [List.getElem?_set_self', hlt]
    . intro j hj
      rw [List.getElem?_set_ne (fun hh => hj hh.symm)]

/-- Witness for C10: on the buffer `[5, 6, 7, 8]` of a 2×2 grid, index 2 is
overwritten (and index 0 untouched), while index -1 is a no-op. -/
theorem workerSetCellBounds_witness :
    ([5, 6, 7, 8] : List Nat).length = 2 * 2
    ∧ ¬(0 ≤ (-1 : Int) ∧ (-1 : Int) < ((2 * 2 : Nat) : Int))
    ∧ workerSetCell (2 * 2) [5, 6, 7, 8] (-1) 9 = [5, 6, 7, 8]
    ∧ (0 ≤ (2 : Int) ∧ (2 : Int) < ((2 * 2 : Nat) : Int))
    ∧ (workerSetCell (2 * 2) [5, 6, 7, 8] 2 9)[(2 : Int).toNat]? = some 9
    ∧ (workerSetCell (2 * 2) [5, 6, 7, 8] 2 9)[0]? = ([5, 6, 7, 8] : List Nat)[0]? :=
  ⟨rfl, by decide,
   (workerSetCellBounds 2 2 [5, 6, 7, 8] (-1) 9 rfl).1 (by decide),
   by decide,
   ((workerSetCellBounds 2 2 [5, 6, 7, 8] 2 9 rfl).2 (by decide)).1,
   ((workerSetCellBounds 2 2 [5, 6, 7, 8] 2 9 rfl).2 (by decide)).2 0 (by decide)⟩
